import Mathlib

/-!
Verification of the core of `zfs-to-glacier` against its specification.

The definitions below are a shallow embedding of `src/s3_utils.rs` and
`src/compute_backups.rs`.  The object store is abstracted as an oracle:
listing responses are given as the sequence of pages the store returns,
and the success/failure of each store call is given by an outcome
function indexed by attempt number.  Byte streams are modelled as lists
of bytes (`List Nat`); timestamps as integers (seconds); regular
expression matching as boolean predicates on strings, since the regex
engine is an external crate.
-/

namespace ZfsToGlacier

/-- `StorageClass` from `s3_utils.rs`. -/
inductive StorageClass
  | STANDARD
  | Glacier
  | DeepArchive
  | StandardInfrequentAccess
deriving DecidableEq, Repr

/-- `ToString for StorageClass` in `s3_utils.rs`. -/
def StorageClass.toStr : StorageClass → String
  | .STANDARD => "STANDARD"
  | .Glacier => "GLACIER"
  | .DeepArchive => "DEEP_ARCHIVE"
  | .StandardInfrequentAccess => "STANDARD_IA"

/-- `S3Key` from `s3_utils.rs`: a `(key, etag)` pair of a remote object. -/
structure S3Key where
  key : String
  etag : String
deriving DecidableEq, Repr

/-- `MAX_S3_PART_COUNT` from `s3_utils.rs`. -/
def MAX_S3_PART_COUNT : Nat := 10000

/-! ## Remote Catalog: `get_all_files` (s3_utils.rs lines 96-126)

A listing response page, as consumed by the loop: the fields of
`ListObjectsV2Output` that `get_all_files` reads.  The store is
modelled as the list of pages it returns, in order: the i-th request
issued by the loop receives the i-th page. -/
structure ListPage where
  contents : Option (List S3Key)
  isTruncated : Option Bool
  continuationToken : Option String
deriving DecidableEq, Repr

/-- The `(key, etag)` entries a page contributes (`request.contents` loop). -/
def pageEntries (p : ListPage) : List S3Key :=
  p.contents.getD []

/-- The `while scan` loop of `get_all_files`.  `token` is the marker sent
as `start_after` in the current request (initially `None`).  Returns the
list of markers sent with each issued request together with the
accumulated entries; `none` if the store runs out of responses while
still reporting truncation (the Rust loop would keep requesting). -/
def getAllFilesGo : List ListPage → Option String →
    Option (List (Option String) × List S3Key)
  | [], _ => none
  | page :: rest, token =>
    if page.isTruncated.getD false then
      match getAllFilesGo rest page.continuationToken with
      | none => none
      | some (reqs, acc) => some (token :: reqs, pageEntries page ++ acc)
    else
      some ([token], pageEntries page)

/-- `get_all_files`, starting with no marker. -/
def getAllFiles (pages : List ListPage) :
    Option (List (Option String) × List S3Key) :=
  getAllFilesGo pages none

/-! ## Part-size selection (s3_utils.rs lines 408-418) -/

/-- The `loop` in `upload_stdout` choosing `buf_size`:
double until `safe_estimated_size / buf_size < MAX_S3_PART_COUNT`. -/
def bufSizeLoop (safe : Nat) (buf : Nat) : Nat :=
  if safe / buf < MAX_S3_PART_COUNT then buf
  else bufSizeLoop safe (buf * 2)
termination_by safe / buf
decreasing_by
  have hb : buf ≠ 0 := by
    intro h0
    simp [h0, MAX_S3_PART_COUNT] at *
  have h1 : MAX_S3_PART_COUNT ≤ safe / buf := Nat.le_of_not_lt (by assumption)
  have h2 : safe / (buf * 2) = safe / buf / 2 := (Nat.div_div_eq_div_mul safe buf 2).symm
  rw [h2]
  exact Nat.div_lt_self (Nat.lt_of_lt_of_le (by simp [MAX_S3_PART_COUNT]) h1) (by omega)

/-- `buf_size` computation in `upload_stdout`: start from 8 MiB, with the
`× 2` safety factor applied to the estimate. -/
def computeBufSize (estimatedSize : Nat) : Nat :=
  bufSizeLoop (estimatedSize * 2) (8 * 1024 * 1024)

/-! ## Reader loop (s3_utils.rs lines 226-253)

The reader fills a fresh buffer of capacity `buf_size` from the child's
stdout (`take(buf_size).read_to_end`), so each read yields
`min buf_size remaining` bytes; a non-empty buffer is submitted with the
next 1-based part number, an empty read breaks the loop. -/

/-- The successive buffers the reader submits, given the child's whole
output `data`.  (With `b = 0` every read returns 0 bytes and the loop
exits at once, producing no buffer.) -/
def readChunks (b : Nat) (data : List Nat) : List (List Nat) :=
  if h : b = 0 ∨ data = [] then []
  else data.take b :: readChunks b (data.drop b)
termination_by data.length
decreasing_by
  rcases not_or.mp h with ⟨hb, hd⟩
  have : 0 < data.length := List.length_pos.mpr hd
  simp only [List.length_drop]
  omega

/-- One `(part_number, buffer)` submission; the buffer is kept as its size,
the only attribute the claims consult. -/
structure PartUpload where
  partNumber : Nat
  size : Nat
deriving DecidableEq, Repr

/-- Attach the 1-based part numbers the reader assigns
(`part_count = part_count + 1` before each read). -/
def numberParts : Nat → List (List Nat) → List PartUpload
  | _, [] => []
  | n, c :: cs => ⟨n, c.length⟩ :: numberParts (n + 1) cs

/-- All `(part_number, buffer)` pairs submitted to the sender pool during
a run that drains the whole stream. -/
def partsSubmitted (b : Nat) (data : List Nat) : List PartUpload :=
  numberParts 1 (readChunks b data)

/-! ## Retry loop (`retry!` macro, s3_utils.rs lines 76-94)

The wrapped operation is modelled by its outcome per attempt
(`outcome attempt = true` iff the store call of that attempt succeeds);
the macro re-invokes the very same closure with the same captured
arguments, so the payload is identical on every attempt by
construction. -/

/-- A run of the retry loop: whether it ended in success, how many
attempts were performed, and the seconds slept between tries. -/
structure RetryTrace where
  result : Bool
  attempts : Nat
  sleeps : List Nat
deriving DecidableEq, Repr

/-- The `loop` of `retry!` from a given attempt number; `fuel` is the
number of retries still permitted (`20 - attempt` at every call site),
so the `fuel = 0` case is the final attempt where `attempt < 20` fails
and the loop breaks with whatever the result was. -/
def retryGo (outcome : Nat → Bool) : Nat → Nat → RetryTrace
  | 0, attempt => ⟨outcome attempt, 1, []⟩
  | fuel + 1, attempt =>
    if outcome attempt then ⟨true, 1, []⟩
    else if attempt < 20 then
      let r := retryGo outcome fuel (attempt + 1)
      ⟨r.result, r.attempts + 1, attempt * 2 :: r.sleeps⟩
    else ⟨false, 1, []⟩

/-- `retry!`: attempts counted from 1, at most 20 attempts in total. -/
def retryRun (outcome : Nat → Bool) : RetryTrace :=
  retryGo outcome 19 1

/-! ## Sender pool (s3_utils.rs lines 163-224)

Each buffer is processed by one sender: a retried `upload_part` call.
The source performs `data_sent.fetch_add(buffer_size)` BEFORE the `?`
that propagates an `upload_part` error out of the closure (lines
203-208), so the counter is incremented on every attempt, failed ones
included; `processParts` reproduces this faithfully.  The senders are
sequentialised here; the claims settled against this model concern only
the final counter value, the multiset of submitted parts and the
success/failure of the phase, none of which depend on interleaving. -/

/-- Process the submitted parts in order.  `partOutcome p attempt` is the
store's verdict on attempt `attempt` of part `p`.  Returns the final
`data_sent` counter and either the completed parts or the first error. -/
def processParts (partOutcome : Nat → Nat → Bool) :
    List PartUpload → Nat → Nat × Except String (List PartUpload)
  | [], counter => (counter, .ok [])
  | p :: rest, counter =>
    let t := retryRun (partOutcome p.partNumber)
    let counter2 := counter + p.size * t.attempts
    if t.result then
      match processParts partOutcome rest counter2 with
      | (c, .ok done) => (c, .ok (p :: done))
      | (c, .error e) => (c, .error e)
    else
      (counter2, .error "upload part failed")

/-- `upload_stdout_send_parts` (lines 144-276): feed every reader buffer
through the sender pool, then check the child's exit status; a non-zero
exit yields the `S3UploadFailedError` of lines 262-264.  Returns the
final counter and the phase result. -/
def sendPartsResult (b : Nat) (data : List Nat) (exitOk : Bool)
    (partOutcome : Nat → Nat → Bool) : Nat × Except String (List PartUpload) :=
  match processParts partOutcome (partsSubmitted b data) 0 with
  | (c, .error e) => (c, .error e)
  | (c, .ok done) =>
    if exitOk then (c, .ok done)
    else (c, .error "zfs command exited with error code")

/-- Observable outcome of one `upload_stdout_internal` run (after a
successful `CreateMultipartUpload`). -/
structure UploadRun where
  partsSubmitted : List PartUpload
  bytesSent : Nat
  completeCalledWith : Option (List PartUpload)
  abortIssued : Bool
  result : Except String Nat
deriving Repr

/-- `upload_stdout_internal` (lines 338-392), from the point where
`create_multipart_upload` has succeeded: on `Ok` from the send-parts
phase issue a retried `CompleteMultipartUpload` and propagate its error
with `r?` (no abort); on `Err` issue a retried `AbortMultipartUpload`
and return the original error whether or not the abort succeeded (an
abort failure is only logged, lines 382-390). -/
def uploadStdoutInternalRun (b : Nat) (data : List Nat) (exitOk : Bool)
    (partOutcome : Nat → Nat → Bool) (completeOutcome abortOutcome : Nat → Bool) :
    UploadRun :=
  match sendPartsResult b data exitOk partOutcome with
  | (counter, .ok parts) =>
    if (retryRun completeOutcome).result then
      { partsSubmitted := partsSubmitted b data
        bytesSent := counter
        completeCalledWith := some parts
        abortIssued := false
        result := .ok counter }
    else
      { partsSubmitted := partsSubmitted b data
        bytesSent := counter
        completeCalledWith := some parts
        abortIssued := false
        result := .error "complete multipart upload failed" }
  | (counter, .error e) =>
    { partsSubmitted := partsSubmitted b data
      bytesSent := counter
      completeCalledWith := none
      abortIssued := true
      result := .error e }

/-! ## Backup planner (`compute_backups.rs`) -/

/-- `ZfsSnapshot` from `zfs_utils.rs`; `creation` in seconds. -/
structure ZfsSnapshot where
  name : String
  creation : Int
deriving DecidableEq, Repr

/-- `ZfsBackupConfigEntry` from `config.rs`; the compiled
`snapshot_regex_re().is_match` is abstracted as a predicate. -/
structure TierPolicy where
  snapshotMatch : String → Bool
  storageClass : StorageClass
  expireInDays : Int

/-- `ZfsBackupConfig` from `config.rs`. -/
structure BackupConfig where
  poolMatch : String → Bool
  incremental : TierPolicy
  full : TierPolicy
  bucket : String

/-- `S3Backup` from `compute_backups.rs`. -/
structure S3Backup where
  snapshot : ZfsSnapshot
  parent : Option String
  storageClass : StorageClass
  bucket : String
deriving DecidableEq, Repr

/-- `S3Backup::key` (lines 22-31). -/
def S3Backup.key (b : S3Backup) : String :=
  (match b.parent with
   | some _ => "incremental/"
   | none => "full/") ++ b.snapshot.name.replace "@" "_AT_"

/-- `S3BackupActions::new` (lines 83-104). -/
def S3Backup.new (snapshot : ZfsSnapshot) (parent : Option ZfsSnapshot)
    (config : BackupConfig) : S3Backup :=
  { snapshot := snapshot
    parent := parent.map (·.name)
    storageClass :=
      match parent with
      | some _ => config.incremental.storageClass
      | none => config.full.storageClass
    bucket := config.bucket }

/-- `chrono::Duration::days`, in seconds. -/
def days (d : Int) : Int := d * 86400

/-- The inner `for snapshot in snapshots` loop of `get_pending_actions`
(lines 128-162), carrying `last_entry` and `now` (the value of
`Local::now()`).  Emits the pending backups of one pool in order. -/
def pendingGo (now : Int) (config : BackupConfig) :
    List ZfsSnapshot → Option ZfsSnapshot → List S3Backup
  | [], _ => []
  | s :: rest, lastEntry =>
    if config.incremental.snapshotMatch s.name then
      match lastEntry with
      | none => pendingGo now config rest none
      | some parent =>
        if days (config.incremental.expireInDays + 1) < now - s.creation then
          pendingGo now config rest (some s)
        else
          S3Backup.new s (some parent) config :: pendingGo now config rest (some s)
    else if config.full.snapshotMatch s.name then
      if days (config.full.expireInDays + 1) < now - s.creation then
        pendingGo now config rest (some s)
      else
        S3Backup.new s none config :: pendingGo now config rest (some s)
    else
      pendingGo now config rest lastEntry

/-- `get_pending_actions` (lines 120-165); the pool map is given as an
association list in some iteration order. -/
def getPendingActions (now : Int) (config : BackupConfig)
    (pools : List (String × List ZfsSnapshot)) : List S3Backup :=
  pools.flatMap fun pool =>
    if config.poolMatch pool.1 then pendingGo now config pool.2 none else []

/-- `filter_existing_backups` (lines 110-118): drop every planned backup
whose derived key is among the keys of the remote objects. -/
def filterExistingBackups (backups : List S3Backup) (existing : List S3Key) :
    List S3Backup :=
  let existingKeys := existing.map (·.key)
  backups.filter fun b => !(existingKeys.contains b.key)

/-! ## Concrete instances used to exercise the theorems -/

/-- A truncated listing page. -/
def pageA : ListPage := ⟨some [⟨"a", "etag-a"⟩], some true, some "marker-1"⟩

/-- A final (non-truncated) listing page. -/
def pageB : ListPage := ⟨some [⟨"b", "etag-b"⟩], some false, none⟩

/-- A configuration with disjoint monthly/daily patterns. -/
def cfgA : BackupConfig :=
  { poolMatch := fun _ => true
    incremental := ⟨fun n => n == "p@2_daily", .StandardInfrequentAccess, 40⟩
    full := ⟨fun n => n == "p@1_monthly", .DeepArchive, 200⟩
    bucket := "bucket-a" }

/-- A configuration whose two snapshot patterns both match every name. -/
def cfgBoth : BackupConfig :=
  { poolMatch := fun _ => true
    incremental := ⟨fun _ => true, .STANDARD, 40⟩
    full := ⟨fun _ => true, .DeepArchive, 200⟩
    bucket := "bucket-b" }

/-- A full (monthly) snapshot. -/
def sFull : ZfsSnapshot := ⟨"p@1_monthly", 0⟩

/-- An incremental (daily) snapshot. -/
def sInc : ZfsSnapshot := ⟨"p@2_daily", 100⟩

/-- A snapshot matched by both patterns of `cfgBoth`. -/
def snapX : ZfsSnapshot := ⟨"p@x", 0⟩

/-! ## Helper lemmas -/

theorem bufSizeLoop_le (safe buf : Nat) : buf ≤ bufSizeLoop safe buf := by
  induction buf using bufSizeLoop.induct safe with
  | case1 b hlt =>
    rw [bufSizeLoop, if_pos hlt]
  | case2 b hlt ih =>
    rw [bufSizeLoop, if_neg hlt]
    omega

theorem bufSizeLoop_lt (safe buf : Nat) :
    safe / bufSizeLoop safe buf < MAX_S3_PART_COUNT := by
  induction buf using bufSizeLoop.induct safe with
  | case1 b hlt =>
    rw [bufSizeLoop, if_pos hlt]
    exact hlt
  | case2 b hlt ih =>
    rw [bufSizeLoop, if_neg hlt]
    exact ih

theorem computeBufSize_zero : computeBufSize 0 = 8 * 1024 * 1024 := by
  rw [computeBufSize, bufSizeLoop]
  simp [MAX_S3_PART_COUNT]

theorem readChunks_nil (b : Nat) (data : List Nat) (h : b = 0 ∨ data = []) :
    readChunks b data = [] := by
  rw [readChunks, dif_pos h]

theorem readChunks_cons (b : Nat) (data : List Nat) (hb : b ≠ 0) (hd : data ≠ []) :
    readChunks b data = data.take b :: readChunks b (data.drop b) := by
  rw [readChunks, dif_neg (by simp [hb, hd])]

theorem readChunks_length_mul (b : Nat) (hb : 0 < b) :
    ∀ (n : Nat) (data : List Nat), data.length ≤ n →
      data.length ≤ (readChunks b data).length * b := by
  intro n
  induction n with
  | zero =>
    intro data h
    have hd : data = [] := List.eq_nil_of_length_eq_zero (Nat.le_zero.mp h)
    simp [hd, readChunks_nil b [] (Or.inr rfl)]
  | succ n ih =>
    intro data h
    by_cases hd : data = []
    · simp [hd, readChunks_nil b [] (Or.inr rfl)]
    · rw [readChunks_cons b data (by omega) hd]
      simp only [List.length_cons]
      have hdrop := ih (data.drop b) (by simp only [List.length_drop]; omega)
      simp only [List.length_drop] at hdrop
      have hle : data.length ≤ (data.length - b) + b := le_tsub_add
      have hmul : ((readChunks b (data.drop b)).length + 1) * b =
          (readChunks b (data.drop b)).length * b + b := Nat.succ_mul _ _
      omega

theorem readChunks_length_le (b : Nat) (hb : 0 < b) :
    ∀ (k : Nat) (data : List Nat), data.length ≤ k * b →
      (readChunks b data).length ≤ k := by
  intro k
  induction k with
  | zero =>
    intro data h
    have hd : data = [] := List.eq_nil_of_length_eq_zero (by omega)
    simp [hd, readChunks_nil b [] (Or.inr rfl)]
  | succ k ih =>
    intro data h
    by_cases hd : data = []
    · simp [hd, readChunks_nil b [] (Or.inr rfl)]
    · rw [readChunks_cons b data (by omega) hd]
      simp only [List.length_cons]
      rw [Nat.succ_mul] at h
      have := ih (data.drop b) (by simp only [List.length_drop]; omega)
      omega

theorem readChunks_ne_nil (b : Nat) (hb : 0 < b) :
    ∀ (n : Nat) (data : List Nat), data.length ≤ n →
      ∀ c ∈ readChunks b data, c ≠ [] := by
  intro n
  induction n with
  | zero =>
    intro data h
    have hd : data = [] := List.eq_nil_of_length_eq_zero (Nat.le_zero.mp h)
    simp [hd, readChunks_nil b [] (Or.inr rfl)]
  | succ n ih =>
    intro data h c hc
    by_cases hd : data = []
    · rw [hd, readChunks_nil b [] (Or.inr rfl)] at hc
      exact absurd hc (List.not_mem_nil c)
    · rw [readChunks_cons b data (by omega) hd] at hc
      rcases List.mem_cons.mp hc with h1 | h2
      · subst h1
        intro hnil
        rcases List.take_eq_nil_iff.mp hnil with h0 | h0
        · omega
        · exact hd h0
      · exact ih (data.drop b) (by simp only [List.length_drop]; omega) c h2

theorem numberParts_map_partNumber :
    ∀ (cs : List (List Nat)) (n : Nat),
      (numberParts n cs).map PartUpload.partNumber = List.range' n cs.length := by
  intro cs
  induction cs with
  | nil => intro n; simp [numberParts]
  | cons c cs ih =>
    intro n
    simp only [numberParts, List.map_cons, List.length_cons, List.range'_succ]
    exact congrArg _ (ih (n + 1))

theorem retryGo_success (outcome : Nat → Bool) :
    ∀ (k fuel attempt : Nat), attempt + k ≤ 20 → k ≤ fuel →
      (∀ i, attempt ≤ i → i < attempt + k → outcome i = false) →
      outcome (attempt + k) = true →
      retryGo outcome fuel attempt =
        ⟨true, k + 1, (List.range' attempt k).map (fun n => n * 2)⟩ := by
  intro k
  induction k with
  | zero =>
    intro fuel attempt _ _ _ hs
    rw [Nat.add_zero] at hs
    cases fuel with
    | zero => simp [retryGo, hs]
    | succ f => simp [retryGo, hs]
  | succ k ih =>
    intro fuel attempt hle hfuel hf hs
    have hfail : outcome attempt = false := hf attempt le_rfl (by omega)
    cases fuel with
    | zero => omega
    | succ f =>
      rw [retryGo]
      rw [hfail]
      simp only [Bool.false_eq_true, if_false, if_pos (show attempt < 20 by omega)]
      have hrec := ih f (attempt + 1) (by omega) (by omega)
        (fun i h1 h2 => hf i (by omega) (by omega))
        (by rw [show attempt + 1 + k = attempt + (k + 1) by omega]; exact hs)
      rw [hrec]
      simp [List.range'_succ]

theorem retryGo_failure (outcome : Nat → Bool) :
    ∀ (fuel attempt : Nat), 20 ≤ attempt + fuel →
      (retryGo outcome fuel attempt).result = false →
      ∀ i, attempt ≤ i → i ≤ 20 → outcome i = false := by
  intro fuel
  induction fuel with
  | zero =>
    intro attempt h20 hres i h1 h2
    have : i = attempt := by omega
    subst this
    simpa [retryGo] using hres
  | succ f ih =>
    intro attempt h20 hres i h1 h2
    by_cases ho : outcome attempt
    · rw [retryGo, if_pos ho] at hres
      simp at hres
    · by_cases hlt : attempt < 20
      · rcases Nat.eq_or_lt_of_le h1 with h | h
        · have hoa : outcome attempt = false := by simpa using ho
          rw [h] at hoa
          exact hoa
        · rw [retryGo, if_neg (by simp [ho]), if_pos hlt] at hres
          exact ih (attempt + 1) (by omega) hres i (by omega) h2
      · have hia : i = attempt := by omega
        have hoa : outcome attempt = false := by simpa using ho
        rw [hia]
        exact hoa

theorem getAllFilesGo_spec (lastPage : ListPage) (junk : List ListPage)
    (hlast : lastPage.isTruncated.getD false = false) :
    ∀ (front : List ListPage) (tok : Option String),
      (∀ p ∈ front, p.isTruncated.getD false = true) →
      getAllFilesGo (front ++ lastPage :: junk) tok =
        some (tok :: front.map (·.continuationToken),
              (front ++ [lastPage]).flatMap pageEntries) := by
  intro front
  induction front with
  | nil =>
    intro tok _
    simp [getAllFilesGo, hlast]
  | cons f front ih =>
    intro tok hfront
    have hf : f.isTruncated.getD false = true := hfront f (List.mem_cons_self f front)
    simp only [List.cons_append, getAllFilesGo, hf, if_true, List.append_eq]
    rw [ih f.continuationToken (fun p hp => hfront p (List.mem_cons_of_mem f hp))]
    simp

/-! ## Claims -/

/-- C2: for a paged listing, `get_all_files` issues one request per returned
page, forwarding the continuation marker of each truncated response into the
next request, stops at the first page that reports no truncation (later
pages are never requested), and returns the union of the `(key, etag)`
entries of all returned pages. -/
theorem C2_get_all_files_paging (front : List ListPage) (lastPage : ListPage)
    (junk : List ListPage)
    (hfront : ∀ p ∈ front, p.isTruncated.getD false = true)
    (hlast : lastPage.isTruncated.getD false = false) :
    getAllFiles (front ++ lastPage :: junk) =
      some (none :: front.map (·.continuationToken),
            (front ++ [lastPage]).flatMap pageEntries) ∧
    ∀ x, x ∈ (front ++ [lastPage]).flatMap pageEntries ↔
      ∃ p, p ∈ front ++ [lastPage] ∧ x ∈ pageEntries p := by
  refine ⟨getAllFilesGo_spec lastPage junk hlast front none hfront, ?_⟩
  intro x
  exact List.mem_flatMap

/-- Witness for C2 at a concrete two-page listing. -/
theorem C2_get_all_files_paging_witness :
    getAllFiles [pageA, pageB] =
      some (none :: [pageA].map (·.continuationToken),
            ([pageA] ++ [pageB]).flatMap pageEntries) ∧
    ∀ x, x ∈ ([pageA] ++ [pageB]).flatMap pageEntries ↔
      ∃ p, p ∈ [pageA] ++ [pageB] ∧ x ∈ pageEntries p :=
  C2_get_all_files_paging [pageA] pageB [] (by decide) (by decide)

/-- C5: `upload_stdout` chooses `buf-size` by starting at 8 MiB and doubling
until `(estimated-size × 2) / buf-size < 10000`; the chosen size is always
≥ 8 MiB, satisfies that bound, and equals exactly 8 MiB when the estimated
size is zero. -/
theorem C5_buf_size_selection (estimatedSize : Nat) :
    8 * 1024 * 1024 ≤ computeBufSize estimatedSize ∧
    estimatedSize * 2 / computeBufSize estimatedSize < 10000 ∧
    computeBufSize 0 = 8 * 1024 * 1024 :=
  ⟨bufSizeLoop_le _ _,
   by simpa [MAX_S3_PART_COUNT, computeBufSize] using
     bufSizeLoop_lt (estimatedSize * 2) (8 * 1024 * 1024),
   computeBufSize_zero⟩

/-- C7: the retry loop returns success whenever the operation fails `k < 20`
times and succeeds on attempt `k + 1`, having slept `n × 2` seconds before
retrying attempt `n + 1`; and it returns a failure only when all 20 attempts
failed.  The same closure with the same captured payload is invoked on every
attempt, so the resubmitted payload is identical by construction. -/
theorem C7_retry_law (outcome : Nat → Bool) (k : Nat) (hk : k < 20)
    (hfail : ∀ i, 1 ≤ i → i ≤ k → outcome i = false)
    (hsucc : outcome (k + 1) = true) :
    retryRun outcome = ⟨true, k + 1, (List.range' 1 k).map (fun n => n * 2)⟩ ∧
    ∀ g : Nat → Bool, (retryRun g).result = false →
      ∀ i, 1 ≤ i → i ≤ 20 → g i = false := by
  constructor
  · exact retryGo_success outcome k 19 1 (by omega) (by omega)
      (fun i h1 h2 => hfail i h1 (by omega))
      (by rw [show 1 + k = k + 1 by omega]; exact hsucc)
  · intro g hres i h1 h2
    exact retryGo_failure g 19 1 (by omega) hres i h1 h2

/-- Witness for C7: one failure, then success on attempt 2. -/
theorem C7_retry_law_witness :
    retryRun (fun i => i == 2) = ⟨true, 2, [2]⟩ ∧
    ∀ g : Nat → Bool, (retryRun g).result = false →
      ∀ i, 1 ≤ i → i ≤ 20 → g i = false :=
  C7_retry_law (fun i => i == 2) 1 (by omega) (by decide) (by decide)

/-- C9: `filter_existing_backups` drops exactly the planned actions whose
derived key occurs among the remote keys; retention of an action depends on
its key alone and the remote etags play no role. -/
theorem C9_filter_existing_backups (backups : List S3Backup)
    (existing : List S3Key) :
    (∀ a, a ∈ filterExistingBackups backups existing ↔
       a ∈ backups ∧ a.key ∉ existing.map S3Key.key) ∧
    (∀ existing2 : List S3Key,
       existing.map S3Key.key = existing2.map S3Key.key →
       filterExistingBackups backups existing =
         filterExistingBackups backups existing2) := by
  constructor
  · intro a
    simp [filterExistingBackups, List.contains]
  · intro ex2 h
    simp only [filterExistingBackups]
    rw [h]

/-- C3 counterexample: the cap `N ≤ 10000` is not enforced.  With estimated
size 0 the engine picks 8 MiB parts, and a stream of `10000 × 8 MiB + 1`
bytes makes the reader submit part number 10001. -/
theorem C3_part_count_counterexample :
    10001 ∈ (partsSubmitted (computeBufSize 0)
      (List.replicate 83886080001 0)).map PartUpload.partNumber := by
  rw [computeBufSize_zero, partsSubmitted, numberParts_map_partNumber,
    List.mem_range']
  refine ⟨10000, ?_, by norm_num⟩
  by_contra hle
  push_neg at hle
  have hmul := readChunks_length_mul (8 * 1024 * 1024) (by norm_num)
    83886080001 (List.replicate 83886080001 0)
    (List.length_replicate 83886080001 0).le
  rw [List.length_replicate] at hmul
  have h2 : (readChunks (8 * 1024 * 1024)
        (List.replicate 83886080001 (0 : Nat))).length * (8 * 1024 * 1024) ≤
      10000 * (8 * 1024 * 1024) := Nat.mul_le_mul_right _ hle
  omega

/-- C3 (amended): the part numbers submitted are exactly the contiguous
integers `1..=N` where `N` is the number of buffers the reader produced,
each used exactly once with one `UploadPart` submission per non-empty
buffer; `N ≤ 10000` holds whenever the stream is at most `10000 × buf-size`
bytes, but the code does not enforce the cap for longer streams. -/
theorem C3_part_numbers (b : Nat) (data : List Nat) (hb : 0 < b) :
    (partsSubmitted b data).map PartUpload.partNumber =
      List.range' 1 (readChunks b data).length ∧
    (∀ c ∈ readChunks b data, c ≠ []) ∧
    (data.length ≤ 10000 * b → (readChunks b data).length ≤ 10000) :=
  ⟨numberParts_map_partNumber (readChunks b data) 1,
   readChunks_ne_nil b hb data.length data le_rfl,
   fun h => readChunks_length_le b hb 10000 data h⟩

/-- Witness for C3 (amended): a 3-byte stream with 2-byte buffers. -/
theorem C3_part_numbers_witness :
    (partsSubmitted 2 [5, 6, 7]).map PartUpload.partNumber =
      List.range' 1 (readChunks 2 [5, 6, 7]).length ∧
    (∀ c ∈ readChunks 2 [5, 6, 7], c ≠ []) ∧
    (([5, 6, 7] : List Nat).length ≤ 10000 * 2 →
      (readChunks 2 [5, 6, 7]).length ≤ 10000) :=
  C3_part_numbers 2 [5, 6, 7] (by norm_num)

/-- C4: for a snapshot matching the incremental pattern: with no uploadable
predecessor it is skipped and `last_entry` stays unset; with a parent
available and within `expire_in_days + 1` days of now, exactly one
incremental action parented on the preceding uploadable snapshot is
emitted; and whenever a parent was available the snapshot becomes the new
`last_entry` whether or not an action was emitted. -/
theorem C4_incremental_step (now : Int) (config : BackupConfig)
    (s p : ZfsSnapshot) (rest : List ZfsSnapshot)
    (hinc : config.incremental.snapshotMatch s.name = true) :
    pendingGo now config (s :: rest) none = pendingGo now config rest none ∧
    (now - s.creation ≤ days (config.incremental.expireInDays + 1) →
      pendingGo now config (s :: rest) (some p) =
        S3Backup.new s (some p) config :: pendingGo now config rest (some s)) ∧
    (days (config.incremental.expireInDays + 1) < now - s.creation →
      pendingGo now config (s :: rest) (some p) =
        pendingGo now config rest (some s)) := by
  refine ⟨by simp [pendingGo, hinc], ?_, ?_⟩
  · intro h
    simp [pendingGo, hinc, not_lt.mpr h]
  · intro h
    simp [pendingGo, hinc, h]

/-- Witness for C4 at a concrete config, snapshot, and parent. -/
theorem C4_incremental_step_witness :
    pendingGo 200 cfgA (sInc :: []) none = pendingGo 200 cfgA [] none ∧
    ((200 : Int) - sInc.creation ≤ days (cfgA.incremental.expireInDays + 1) →
      pendingGo 200 cfgA (sInc :: []) (some sFull) =
        S3Backup.new sInc (some sFull) cfgA :: pendingGo 200 cfgA [] (some sInc)) ∧
    (days (cfgA.incremental.expireInDays + 1) < (200 : Int) - sInc.creation →
      pendingGo 200 cfgA (sInc :: []) (some sFull) =
        pendingGo 200 cfgA [] (some sInc)) :=
  C4_incremental_step 200 cfgA sInc sFull [] (by decide)

/-- C8 counterexample: `snapX` matches `cfgBoth`'s full pattern and lies
within the grace window, yet the planner emits no action for the pool,
because the incremental pattern also matches and is checked first. -/
theorem C8_full_counterexample :
    cfgBoth.full.snapshotMatch snapX.name = true ∧
    (0 : Int) - snapX.creation ≤ days (cfgBoth.full.expireInDays + 1) ∧
    getPendingActions 0 cfgBoth [("p", [snapX])] = [] :=
  ⟨rfl, by decide, rfl⟩

/-- C8 (amended): for a snapshot matching the full pattern and not the
incremental one (the incremental pattern takes precedence), a full action
with no parent is emitted iff now minus creation is at most
`full.expire_in_days + 1` days, and the snapshot becomes the new
`last_entry` in either case. -/
theorem C8_full_step (now : Int) (config : BackupConfig) (s : ZfsSnapshot)
    (rest : List ZfsSnapshot) (lastEntry : Option ZfsSnapshot)
    (hfull : config.full.snapshotMatch s.name = true)
    (hninc : config.incremental.snapshotMatch s.name = false) :
    (now - s.creation ≤ days (config.full.expireInDays + 1) →
      pendingGo now config (s :: rest) lastEntry =
        S3Backup.new s none config :: pendingGo now config rest (some s)) ∧
    (days (config.full.expireInDays + 1) < now - s.creation →
      pendingGo now config (s :: rest) lastEntry =
        pendingGo now config rest (some s)) := by
  constructor
  · intro h
    simp [pendingGo, hfull, hninc, not_lt.mpr h]
  · intro h
    simp [pendingGo, hfull, hninc, h]

/-- Witness for C8 (amended) at a concrete config and snapshot. -/
theorem C8_full_step_witness :
    ((0 : Int) - sFull.creation ≤ days (cfgA.full.expireInDays + 1) →
      pendingGo 0 cfgA (sFull :: []) none =
        S3Backup.new sFull none cfgA :: pendingGo 0 cfgA [] (some sFull)) ∧
    (days (cfgA.full.expireInDays + 1) < (0 : Int) - sFull.creation →
      pendingGo 0 cfgA (sFull :: []) none =
        pendingGo 0 cfgA [] (some sFull)) :=
  C8_full_step 0 cfgA sFull [] none (by decide) (by decide)

/-- C1: evaluation of the engine at the failing input — a one-byte stream
(one part of size 1) whose first `UploadPart` attempt fails and whose second
succeeds, child exiting cleanly.  Because `data_sent.fetch_add` precedes the
error check in the sender, the returned byte count is 2, while the bytes of
the parts accepted by the store total 1. -/
theorem C1_bytes_sent_eval :
    (uploadStdoutInternalRun 8 [42] true (fun _ attempt => attempt == 2)
      (fun _ => true) (fun _ => true)).result = Except.ok 2 ∧
    (uploadStdoutInternalRun 8 [42] true (fun _ attempt => attempt == 2)
      (fun _ => true) (fun _ => true)).partsSubmitted = [⟨1, 1⟩] := by
  have hchunks : readChunks 8 [42] = [[42]] := by
    rw [readChunks_cons 8 [42] (by norm_num) (by simp)]
    simp [readChunks_nil 8 [] (Or.inr rfl)]
  have hparts : partsSubmitted 8 [42] = [⟨1, 1⟩] := by
    simp [partsSubmitted, hchunks, numberParts]
  have hproc : processParts (fun _ attempt => attempt == 2) [⟨1, 1⟩] 0 =
      (2, Except.ok [⟨1, 1⟩]) := rfl
  have hsend : sendPartsResult 8 [42] true (fun _ attempt => attempt == 2) =
      (2, Except.ok [⟨1, 1⟩]) := by
    simp [sendPartsResult, hparts, hproc]
  have hco : (retryRun (fun _ => true)).result = true := rfl
  constructor
  · simp [uploadStdoutInternalRun, hsend, hco]
  · simp [uploadStdoutInternalRun, hsend, hco, hparts]

/-- C6 counterexample: with an empty stream, a clean child exit and a store
failing every `CompleteMultipartUpload` attempt, the engine hits a
non-recoverable failure after a successful create, yet issues no abort. -/
theorem C6_abort_counterexample :
    (uploadStdoutInternalRun 8 [] true (fun _ _ => true) (fun _ => false)
      (fun _ => true)).result =
        Except.error "complete multipart upload failed" ∧
    (uploadStdoutInternalRun 8 [] true (fun _ _ => true) (fun _ => false)
      (fun _ => true)).abortIssued = false := by
  have hchunks : readChunks 8 ([] : List Nat) = [] :=
    readChunks_nil 8 [] (Or.inr rfl)
  have hsend : sendPartsResult 8 [] true (fun _ _ => true) =
      (0, Except.ok []) := by
    simp [sendPartsResult, partsSubmitted, hchunks, numberParts, processParts]
  have hcf : (retryRun (fun _ => false)).result = false := rfl
  constructor
  · simp [uploadStdoutInternalRun, hsend, hcf]
  · simp [uploadStdoutInternalRun, hsend, hcf]

/-- C6 (amended): every failure of the part-sending phase — including the
error produced by a non-zero child exit after the stream is drained —
makes the engine issue the abort and return the original error, whether or
not the abort succeeds; a retry-exhausted `CompleteMultipartUpload`
failure, by contrast, is returned without an abort (see the
counterexample). -/
theorem C6_abort_on_failure (b : Nat) (data : List Nat) (exitOk : Bool)
    (po : Nat → Nat → Bool) (co ao : Nat → Bool) (c : Nat) (e : String)
    (h : sendPartsResult b data exitOk po = (c, Except.error e)) :
    (uploadStdoutInternalRun b data exitOk po co ao).abortIssued = true ∧
    (uploadStdoutInternalRun b data exitOk po co ao).result =
      Except.error e ∧
    ∀ (po2 : Nat → Nat → Bool) (c2 : Nat) (parts2 : List PartUpload),
      processParts po2 (partsSubmitted b data) 0 = (c2, Except.ok parts2) →
      sendPartsResult b data false po2 =
        (c2, Except.error "zfs command exited with error code") := by
  refine ⟨by simp [uploadStdoutInternalRun, h], by simp [uploadStdoutInternalRun, h], ?_⟩
  intro po2 c2 parts2 h2
  simp [sendPartsResult, h2]

/-- Witness for C6 (amended): empty stream, child exits non-zero. -/
theorem C6_abort_on_failure_witness :
    (uploadStdoutInternalRun 8 [] false (fun _ _ => true) (fun _ => true)
      (fun _ => true)).abortIssued = true ∧
    (uploadStdoutInternalRun 8 [] false (fun _ _ => true) (fun _ => true)
      (fun _ => true)).result =
        Except.error "zfs command exited with error code" ∧
    ∀ (po2 : Nat → Nat → Bool) (c2 : Nat) (parts2 : List PartUpload),
      processParts po2 (partsSubmitted 8 []) 0 = (c2, Except.ok parts2) →
      sendPartsResult 8 [] false po2 =
        (c2, Except.error "zfs command exited with error code") :=
  C6_abort_on_failure 8 [] false (fun _ _ => true) (fun _ => true)
    (fun _ => true) 0 "zfs command exited with error code"
    (by simp [sendPartsResult, partsSubmitted,
      readChunks_nil 8 [] (Or.inr rfl), numberParts, processParts])

/-- C10: when the child's stdout yields zero bytes and the child exits
cleanly, no part is submitted to `UploadPart`, `CompleteMultipartUpload`
is issued with the empty part list, and the run returns success with a
byte count of 0. -/
theorem C10_empty_stream (b : Nat) (po : Nat → Nat → Bool)
    (co ao : Nat → Bool) (hco : (retryRun co).result = true) :
    (uploadStdoutInternalRun b [] true po co ao).partsSubmitted = [] ∧
    (uploadStdoutInternalRun b [] true po co ao).completeCalledWith =
      some [] ∧
    (uploadStdoutInternalRun b [] true po co ao).result = Except.ok 0 := by
  have hchunks : readChunks b ([] : List Nat) = [] :=
    readChunks_nil b [] (Or.inr rfl)
  have hsend : sendPartsResult b [] true po = (0, Except.ok []) := by
    simp [sendPartsResult, partsSubmitted, hchunks, numberParts, processParts]
  refine ⟨?_, ?_, ?_⟩ <;>
    simp [uploadStdoutInternalRun, hsend, hco, partsSubmitted, hchunks,
      numberParts]

/-- Witness for C10 with 8-byte buffers and an always-successful store. -/
theorem C10_empty_stream_witness :
    (uploadStdoutInternalRun 8 [] true (fun _ _ => true) (fun _ => true)
      (fun _ => true)).partsSubmitted = [] ∧
    (uploadStdoutInternalRun 8 [] true (fun _ _ => true) (fun _ => true)
      (fun _ => true)).completeCalledWith = some [] ∧
    (uploadStdoutInternalRun 8 [] true (fun _ _ => true) (fun _ => true)
      (fun _ => true)).result = Except.ok 0 :=
  C10_empty_stream 8 (fun _ _ => true) (fun _ => true) (fun _ => true) rfl

end ZfsToGlacier
